import Mathlib

/-!
Verification of the job dispatch/completion rendezvous protocol of
`app/engine/objects.py`: the per-job wakeup-event registry
(`Job.job_wakeup_events`, `Job._get_job_event`, `Job.wakeup_job`), the
wait loop `Job.wait_till_completed`, and the result-classification
methods `Job.host_command_result`, `Job.rat_result`, `Job.update_rats`.

The embedding is a shallow one: Python dictionaries become a `PyVal`
value tree, exceptions become an explicit `PyErr` error type threaded
through `Except`, the process-wide mutable registry becomes an explicit
`Registry` state passed in and returned, and the asynchronous wait loop
is driven by the finite list of `(status, action)` snapshots that
successive `reload` calls would observe (the timeout between iterations
is absorbed by the source, so each loop iteration is exactly one reload).
-/

deriving instance DecidableEq for Except

namespace Objects

mutual

/-- A Python value as stored in a job action dictionary: `None`, strings,
integers, and string-keyed dictionaries. -/
inductive PyVal where
  | pynone
  | str (s : String)
  | int (n : Int)
  | dict (entries : PyEntries)
deriving DecidableEq

/-- The entries of a Python dictionary, in insertion order. -/
inductive PyEntries where
  | nil
  | cons (key : String) (value : PyVal) (rest : PyEntries)
deriving DecidableEq

end

/-- Dictionary lookup: the value stored under the first occurrence of a key. -/
def PyEntries.lookup : PyEntries → String → Option PyVal
  | .nil, _ => none
  | .cons k v rest, key => if k = key then some v else rest.lookup key

mutual

/-- Python `repr` of a `PyVal` (strings quoted, dicts braced). -/
def PyVal.pyRepr : PyVal → String
  | .pynone => "None"
  | .str s => "\x27" ++ s ++ "\x27"
  | .int n => toString n
  | .dict es => "\x7b" ++ PyEntries.pyReprEntries es ++ "\x7d"

/-- Comma-separated `repr` of dictionary entries. -/
def PyEntries.pyReprEntries : PyEntries → String
  | .nil => ""
  | .cons k v .nil => "\x27" ++ k ++ "\x27: " ++ v.pyRepr
  | .cons k v rest => "\x27" ++ k ++ "\x27: " ++ v.pyRepr ++ ", " ++ rest.pyReprEntries

end

/-- Python `str` of a `PyVal`, as used by `"...".format(value)`: a string
renders as itself, everything else as its `repr`. -/
def PyVal.pyStr : PyVal → String
  | .str s => s
  | v => v.pyRepr

/-- Python `key in d` on a dictionary (false on non-dictionaries, which
would raise in Python but is never reached by the embedded code paths). -/
def PyVal.hasKey : PyVal → String → Bool
  | .dict es, k => (es.lookup k).isSome
  | _, _ => false

/-- A host record; only its identity matters to the rendezvous core. -/
structure Host where
  hostname : String
deriving DecidableEq

/-- An agent record: the executing endpoint, owning a host reference. -/
structure Agent where
  host : Host
deriving DecidableEq

/-- A job identifier as passed around the registry API: either already a
string or a non-string id (a bson ObjectId) whose `str()` form is carried. -/
inductive JobId where
  | str (s : String)
  | objectId (s : String)
deriving DecidableEq

/-- The normalization `if not isinstance(job_id, str): job_id = str(job_id)`
performed by `_get_job_event` and `wakeup_job`. -/
def JobId.toStr : JobId → String
  | .str s => s
  | .objectId s => s

/-- The fields of a `Job` document used by the rendezvous core: identity,
agent reference, `action` payload, `status`, and the wakeup event stored by
`__init__` (identified by its allocation number). -/
structure Job where
  id : JobId
  agent : Agent
  action : PyVal
  status : String
  event : Nat
deriving DecidableEq

/-- The Python exceptions the embedded code can raise. -/
inductive PyErr where
  /-- `KeyError` from a failed dictionary subscript. -/
  | keyError (k : String)
  /-- `TypeError` from subscripting a non-dictionary. -/
  | typeError
  /-- `AttributeError` (named in the `except` clause of
  `host_command_result`; never produced by the embedded paths). -/
  | attributeError
  /-- `JobException(kind, message, job)` as raised in the wait loop. -/
  | jobException3 (kind : String) (message : PyVal) (job : Job)
  /-- `JobException(message)` with a single formatted argument. -/
  | jobException1 (message : String)
  /-- A bare `Exception(message)`. -/
  | exception (message : String)
  /-- `CaseException()` from `app.util`. -/
  | caseException
deriving DecidableEq

/-- Python `d[k]`: on a dictionary, the stored value or `KeyError`; on any
other value a `TypeError`. -/
def PyVal.getItem : PyVal → String → Except PyErr PyVal
  | .dict es, k =>
    match es.lookup k with
    | some v => .ok v
    | none => .error (.keyError k)
  | .pynone, _ => .error .typeError
  | .str _, _ => .error .typeError
  | .int _, _ => .error .typeError

/-- The process-wide registry `Job.job_wakeup_events`. Each
`asyncio.Event` is identified by an allocation number `next` so that
object identity (sharing) is expressible: `events` maps a job-id string to
the event allocated for it, and `flags` holds each allocated event's
set/unset state. -/
structure Registry where
  events : List (String × Nat)
  flags : List (Nat × Bool)
  next : Nat
deriving DecidableEq

/-- The registry of a freshly started process: no events allocated. -/
def Registry.empty : Registry := ⟨[], [], 0⟩

/-- Mutating an `asyncio.Event` object: every flags entry for this
allocation number (at most one in a well-formed registry) takes state `b`. -/
def setFlagList (e : Nat) (b : Bool) : List (Nat × Bool) → List (Nat × Bool)
  | [] => []
  | p :: ps => if p.1 = e then (p.1, b) :: setFlagList e b ps else p :: setFlagList e b ps

/-- `event.set()` / `event.clear()` on the event with allocation number `e`. -/
def Registry.setFlag (r : Registry) (e : Nat) (b : Bool) : Registry :=
  { r with flags := setFlagList e b r.flags }

/-- `Job._get_job_event(job_id)`: normalize the id to its string form;
return the stored event if one exists, otherwise allocate a fresh unset
`asyncio.Event`, store it under the id, and return it. -/
def get_job_event (r : Registry) (job_id : JobId) : Nat × Registry :=
  match r.events.lookup job_id.toStr with
  | some e => (e, r)
  | none =>
    (r.next,
     { events := (job_id.toStr, r.next) :: r.events,
       flags := (r.next, false) :: r.flags,
       next := r.next + 1 })

/-- `Job.wakeup_job(job_id)`: normalize the id to a string, resolve (or
create) its event via `_get_job_event`, and set it. -/
def wakeup_job (r : Registry) (job_id : JobId) : Registry :=
  ((get_job_event r (.str job_id.toStr)).2).setFlag
    (get_job_event r (.str job_id.toStr)).1 true

/-- `Job.__init__`: build the document and store
`self.event = Job._get_job_event(self.id)`, creating the registry entry
when absent. -/
def Job.init (r : Registry) (id : JobId) (agent : Agent) (action : PyVal)
    (status : String) : Job × Registry :=
  (⟨id, agent, action, status, (get_job_event r id).1⟩, (get_job_event r id).2)

/-- One `(status, action)` pair as observed by `self.reload('status', 'action')`
at the top of a wait-loop iteration. -/
structure Snapshot where
  status : String
  action : PyVal
deriving DecidableEq

/-- The possible outcomes of `wait_till_completed`: a normal return, a
raised exception, or exhaustion of the supplied reload snapshots while the
job is still non-terminal (the coroutine would keep waiting). Each carries
the registry as left behind. -/
inductive WaitOutcome where
  | returned (j : Job) (r : Registry)
  | raised (e : PyErr) (r : Registry)
  | stillWaiting (j : Job) (r : Registry)
deriving DecidableEq

/-- The registry component of a wait outcome. -/
def WaitOutcome.reg : WaitOutcome → Registry
  | .returned _ r => r
  | .raised _ r => r
  | .stillWaiting _ r => r

/-- The `while True` body of `wait_till_completed`, driven by the list of
reload snapshots: each iteration waits (timeout absorbed), reloads
`status` and `action`, returns on `success`, classifies the error on
`failed`, and otherwise clears the event and loops. -/
def waitLoop (ev : Nat) (j : Job) (r : Registry) : List Snapshot → WaitOutcome
  | [] => .stillWaiting j r
  | s :: rest =>
    let j' : Job := { j with status := s.status, action := s.action }
    if s.status = "success" then
      .returned j' r
    else if s.status = "failed" then
      match s.action.getItem "error" with
      | .error e => .raised e r
      | .ok errv =>
        if errv = .str "no client" then
          .raised (.jobException3 "NoRatError"
                    (.str "Job failed because the rat was killed") j') r
        else if errv = .str "agents exception" then
          match s.action.getItem "exception" with
          | .error e => .raised e r
          | .ok exv => .raised (.jobException3 "AgentExceptionError" exv j') r
        else
          .raised (.jobException1
            ("The action.error field in the job was not recognized: " ++ errv.pyStr)) r
    else
      waitLoop ev j' (r.setFlag ev false) rest

/-- `Job.wait_till_completed`: fast exit when the in-memory status is in
`('success', 'failure')` — exactly the tuple the source tests — otherwise
obtain the shared event for this job id and run the wait loop. -/
def wait_till_completed (j : Job) (r : Registry) (snaps : List Snapshot) : WaitOutcome :=
  if j.status = "success" ∨ j.status = "failure" then
    .returned j r
  else
    waitLoop (get_job_event r j.id).1 j (get_job_event r j.id).2 snaps

/-- The transient `HostCommand` result view. -/
structure HostCommand where
  command_line : PyVal := .str ""
  output : PyVal := .str ""
  status : String := ""
  host : Option Host := none
deriving DecidableEq

/-- The transient `RatCommand` result view. -/
structure RatCommand where
  host : Option Host := none
  status : String := ""
  function : String := ""
  parameters : PyVal := .dict .nil
  outputs : PyVal := .dict .nil
  agent : Option Agent := none
deriving DecidableEq

/-- The lookup `self.action['execute']['command_line']` attempted inside
the `try` of `host_command_result`. -/
def commandLinePath (action : PyVal) : Except PyErr PyVal :=
  match action.getItem "execute" with
  | .ok ex => ex.getItem "command_line"
  | .error e => .error e

/-- Whether an exception is absorbed by `except (AttributeError, KeyError)`. -/
def caughtByHostCommand : PyErr → Bool
  | .keyError _ => true
  | .attributeError => true
  | _ => false

/-- `Job.host_command_result`: build a `HostCommand` with the job status
and the agent host; try to copy `action.execute.command_line`, silently
absorbing `AttributeError`/`KeyError`; on `success` copy `action.result`
into the output. The job itself is read only, never written. -/
def host_command_result (j : Job) : Except PyErr HostCommand :=
  let hc : HostCommand := { status := j.status, host := some j.agent.host }
  let afterTry : Except PyErr HostCommand :=
    match commandLinePath j.action with
    | .ok v => .ok { hc with command_line := v }
    | .error e => if caughtByHostCommand e then .ok hc else .error e
  match afterTry with
  | .error e => .error e
  | .ok hc =>
    if j.status = "success" then
      match j.action.getItem "result" with
      | .ok res => .ok { hc with output := res }
      | .error e => .error e
    else
      .ok hc

/-- `Job.update_rats(ivc)`: always copy the job status into the view; on
`success` copy `action['result']` into `outputs`; on `pending`, `created`
or `failed` leave the view otherwise untouched; on any other status raise
`CaseException`. -/
def update_rats (j : Job) (ivc : RatCommand) : Except PyErr RatCommand :=
  let ivc := { ivc with status := j.status }
  if j.status = "success" then
    match j.action.getItem "result" with
    | .ok res => .ok { ivc with outputs := res }
    | .error e => .error e
  else if j.status = "pending" ∨ j.status = "created" ∨ j.status = "failed" then
    .ok ivc
  else
    .error .caseException

/-- `Job.rat_result`: build a `RatCommand` from the agent, its host and
`action['rats']['parameters']` — this subscript runs BEFORE the
`'rats' in self.action` guard — then delegate to `update_rats` when the
`rats` key is present, else raise the non-rat-job `Exception`. -/
def rat_result (j : Job) : Except PyErr RatCommand :=
  let ivc : RatCommand := { agent := some j.agent, host := some j.agent.host }
  match j.action.getItem "rats" with
  | .error e => .error e
  | .ok rats =>
    match rats.getItem "parameters" with
    | .error e => .error e
    | .ok params =>
      let ivc := { ivc with parameters := params }
      if j.action.hasKey "rats" then
        update_rats j ivc
      else
        .error (.exception "Getting rat result on non-rat job")

/-! Concrete sample data used to evaluate the definitions at specific
inputs. -/

/-- A sample host. -/
def sampleHost : Host := ⟨"WS01"⟩

/-- A sample agent on the sample host. -/
def sampleAgent : Agent := ⟨sampleHost⟩

/-- An action payload written back by the backend when the rat was killed. -/
def noClientAction : PyVal := .dict (.cons "error" (.str "no client") .nil)

/-- A job already in status `failed` with the no-client error payload. -/
def failedJob : Job := ⟨.objectId "jf", sampleAgent, noClientAction, "failed", 0⟩

/-- A job whose action has no `rats` key (an agent command). -/
def nonRatJob : Job :=
  ⟨.str "jn", sampleAgent, .dict (.cons "execute" (.dict .nil) .nil), "success", 0⟩

/-- A successful job carrying a result payload and no `execute` key. -/
def successJob : Job :=
  ⟨.str "js", sampleAgent, .dict (.cons "result" (.str "out") .nil), "success", 0⟩

/-- A pending job waiting for its backend update. -/
def pendingJob : Job := ⟨.str "jp", sampleAgent, .dict .nil, "pending", 0⟩

/-- An action payload reporting an agent-side exception. -/
def agentsExceptionAction : PyVal :=
  .dict (.cons "error" (.str "agents exception") (.cons "exception" (.str "boom") .nil))

/-- An action payload with an error string the wait loop does not recognize. -/
def diskFullAction : PyVal := .dict (.cons "error" (.str "disk full") .nil)

/-- C1: the claim says a job whose status is already terminal (`success` or
`failed`) returns from `wait_till_completed` immediately, without raising,
without entering the wait loop and without touching the registry. The
source fast-exits on the tuple `('success', 'failure')` — not `'failed'` —
so a job whose status is `failed` does enter the loop: with one reload
snapshot it raises `JobException("NoRatError", ...)` instead of returning,
and even with no snapshot at all it has already created a registry entry
for its id (second conjunct, starting from the empty registry). -/
theorem wait_till_completed_failed_status_enters_loop :
    wait_till_completed failedJob Registry.empty [⟨"failed", noClientAction⟩] =
      .raised (.jobException3 "NoRatError" (.str "Job failed because the rat was killed")
        failedJob) ⟨[("jf", 0)], [(0, false)], 1⟩ ∧
    ((wait_till_completed failedJob Registry.empty []).reg.events.lookup "jf").isSome = true := by
  decide

/-- C2: the claim says `rat_result` on a job whose action lacks a `rats`
key fails with the generic non-rat-job error. The source subscripts
`self.action['rats']['parameters']` before the `'rats' in self.action`
guard, so the call raises `KeyError('rats')` instead and the guard's
`Exception('Getting rat result on non-rat job')` branch is unreachable. -/
theorem rat_result_non_rat_job_raises_key_error :
    rat_result nonRatJob = .error (.keyError "rats") ∧
    rat_result nonRatJob ≠ .error (.exception "Getting rat result on non-rat job") := by
  decide

/-- C8: `update_rats` proceeds by case on the job status: on `success` it
copies the action `result` field into the view outputs; on `pending`,
`created` or `failed` it leaves the outputs untouched (only the status
field of the view is refreshed); on any other status it raises
`CaseException`. -/
theorem update_rats_by_status (j : Job) (ivc : RatCommand) :
    (∀ v : PyVal, j.status = "success" → j.action.getItem "result" = .ok v →
      update_rats j ivc = .ok { ivc with status := j.status, outputs := v }) ∧
    (j.status = "pending" ∨ j.status = "created" ∨ j.status = "failed" →
      update_rats j ivc = .ok { ivc with status := j.status }) ∧
    (j.status ≠ "success" → j.status ≠ "pending" → j.status ≠ "created" →
      j.status ≠ "failed" → update_rats j ivc = .error .caseException) := by
  refine ⟨fun v hs hr => ?_, fun h => ?_, fun h1 h2 h3 h4 => ?_⟩
  · simp [update_rats, hs, hr]
  · have hns : j.status ≠ "success" := by
      rcases h with h | h | h <;> rw [h] <;> decide
    simp [update_rats, hns, h]
  · simp [update_rats, h1, h2, h3, h4]

/-- Witness for C8: evaluating `update_rats` on the concrete successful
job copies its result string into the outputs. -/
theorem update_rats_by_status_witness :
    successJob.status = "success" ∧
    successJob.action.getItem "result" = .ok (.str "out") ∧
    update_rats successJob {} = .ok { status := "success", outputs := .str "out" } :=
  ⟨rfl, rfl, (update_rats_by_status successJob {}).1 (.str "out") rfl rfl⟩

/-- C9: for a terminal job whose `action.execute.command_line` path is
absent (a `KeyError` inside the `try`), `host_command_result` succeeds
with the job status, the agent host, an empty command line, and — when
the status is `success` — the action `result` field as output; the job is
only read (the embedding returns the view alone, taking the job as a pure
argument). -/
theorem host_command_result_fields (j : Job) (v : PyVal)
    (hterm : j.status = "success" ∨ j.status = "failed")
    (hmiss : ∃ k, commandLinePath j.action = .error (.keyError k))
    (hres : j.status = "success" → j.action.getItem "result" = .ok v) :
    host_command_result j =
      .ok { command_line := .str "", status := j.status, host := some j.agent.host,
            output := if j.status = "success" then v else .str "" } := by
  obtain ⟨k, hk⟩ := hmiss
  rcases hterm with hs | hf
  · simp [host_command_result, hk, caughtByHostCommand, hs, hres hs]
  · have hns : j.status ≠ "success" := by rw [hf]; decide
    simp [host_command_result, hk, caughtByHostCommand, hns]

/-- Witness for C9: the concrete successful job (no `execute` key, result
`"out"`) yields the expected view. -/
theorem host_command_result_fields_witness :
    (successJob.status = "success" ∨ successJob.status = "failed") ∧
    commandLinePath successJob.action = .error (.keyError "execute") ∧
    host_command_result successJob =
      .ok { command_line := .str "", status := successJob.status,
            host := some successJob.agent.host,
            output := if successJob.status = "success" then .str "out" else .str "" } :=
  ⟨Or.inl rfl, rfl,
   host_command_result_fields successJob (.str "out") (Or.inl rfl)
     ⟨"execute", rfl⟩ (fun _ => rfl)⟩

/-! Registry lemmas shared by the claims about `_get_job_event`,
`wakeup_job` and registry growth. -/

/-- Setting or clearing an event never changes the id-to-event map. -/
theorem setFlag_events (r : Registry) (e : Nat) (b : Bool) :
    (r.setFlag e b).events = r.events := rfl

/-- Prepending an entry cannot make an existing key disappear. -/
theorem lookup_cons_isSome {α β : Type} [BEq α] (p : α × β) (l : List (α × β)) (k : α)
    (h : (l.lookup k).isSome) : ((p :: l).lookup k).isSome := by
  cases hp : k == p.1 <;> simp [List.lookup, hp, h]

/-- `_get_job_event` on an id already present returns the stored event and
leaves the registry untouched. -/
theorem get_job_event_of_lookup_some (r : Registry) (a : JobId) (e : Nat)
    (h : r.events.lookup a.toStr = some e) : get_job_event r a = (e, r) := by
  unfold get_job_event
  rw [h]

/-- `_get_job_event` on an absent id allocates the next event number,
registers it unset, and bumps the allocation counter. -/
theorem get_job_event_of_lookup_none (r : Registry) (a : JobId)
    (h : r.events.lookup a.toStr = none) :
    get_job_event r a =
      (r.next, ⟨(a.toStr, r.next) :: r.events, (r.next, false) :: r.flags, r.next + 1⟩) := by
  unfold get_job_event
  simp [h]

/-- After `_get_job_event`, the queried id maps to the returned event. -/
theorem get_job_event_lookup_self (r : Registry) (a : JobId) :
    ((get_job_event r a).2).events.lookup a.toStr = some (get_job_event r a).1 := by
  cases h : r.events.lookup a.toStr with
  | some e => rw [get_job_event_of_lookup_some r a e h]; exact h
  | none => simp [get_job_event_of_lookup_none r a h, List.lookup]

/-- `_get_job_event` preserves every registered id. -/
theorem get_job_event_preserves_lookup (r : Registry) (a : JobId) (k : String)
    (h : (r.events.lookup k).isSome) :
    (((get_job_event r a).2).events.lookup k).isSome := by
  cases hl : r.events.lookup a.toStr with
  | some e => simpa [get_job_event_of_lookup_some r a e hl] using h
  | none =>
    rw [get_job_event_of_lookup_none r a hl]
    exact lookup_cons_isSome _ _ _ h

/-- Setting an allocated flag makes its stored state the requested one. -/
theorem lookup_setFlagList (e : Nat) (b : Bool) :
    ∀ l : List (Nat × Bool), (l.lookup e).isSome →
      (setFlagList e b l).lookup e = some b
  | [], h => by simp [List.lookup] at h
  | p :: ps, h => by
    by_cases hp : p.1 = e
    · have hb : (e == p.1) = true := by simp [hp]
      simp [setFlagList, hp, List.lookup, hb]
    · have hb : (e == p.1) = false := by
        cases h3 : (e == p.1) with
        | false => rfl
        | true => exact absurd (eq_of_beq h3).symm hp
      have h2 : (ps.lookup e).isSome := by simpa [List.lookup, hb] using h
      simp [setFlagList, hp, List.lookup, hb, lookup_setFlagList e b ps h2]

/-- The wait loop only sets and clears event flags: the id-to-event map
is exactly the one it started from. -/
theorem waitLoop_reg_events (ev : Nat) (l : List Snapshot) :
    ∀ (j : Job) (r : Registry), ((waitLoop ev j r l).reg).events = r.events := by
  induction l with
  | nil => intro j r; rfl
  | cons s rest ih =>
    intro j r
    unfold waitLoop
    by_cases h1 : s.status = "success"
    · simp [h1, WaitOutcome.reg]
    · rw [if_neg h1]
      by_cases h2 : s.status = "failed"
      · rw [if_pos h2]
        cases he : s.action.getItem "error" with
        | error e => rfl
        | ok errv =>
          dsimp only
          by_cases hnc : errv = .str "no client"
          · simp [hnc, WaitOutcome.reg]
          · rw [if_neg hnc]
            by_cases hae : errv = .str "agents exception"
            · rw [if_pos hae]
              cases s.action.getItem "exception" <;> rfl
            · rw [if_neg hae]; rfl
      · rw [if_neg h2]
        exact ih _ _

/-- C3: one signal per distinct job identifier. For ids `a` and `b` with
the same normalized string form (covering the non-string id case), a call
after any first call returns the very same event with the registry
unchanged; when the id was absent, the first call stores the returned
event under the id, the event is initially unset, and it is fresh (equal
to no previously stored event); when the id was present, the call returns
exactly the stored event and changes nothing. -/
theorem get_job_event_single_signal (r : Registry) (a b : JobId)
    (hab : a.toStr = b.toStr) (hwf : ∀ p ∈ r.events, p.2 < r.next) :
    ((get_job_event ((get_job_event r a).2) b).1 = (get_job_event r a).1 ∧
      (get_job_event ((get_job_event r a).2) b).2 = (get_job_event r a).2) ∧
    (r.events.lookup a.toStr = none →
      ((get_job_event r a).2).events.lookup a.toStr = some (get_job_event r a).1 ∧
      ((get_job_event r a).2).flags.lookup (get_job_event r a).1 = some false ∧
      ∀ p ∈ r.events, p.2 ≠ (get_job_event r a).1) ∧
    (∀ e, r.events.lookup a.toStr = some e → get_job_event r a = (e, r)) := by
  refine ⟨?_, fun hnone => ?_, fun e he => get_job_event_of_lookup_some r a e he⟩
  · have hl2 : ((get_job_event r a).2).events.lookup b.toStr =
        some (get_job_event r a).1 := by
      rw [← hab]; exact get_job_event_lookup_self r a
    rw [get_job_event_of_lookup_some _ b _ hl2]
    exact ⟨rfl, rfl⟩
  · rw [get_job_event_of_lookup_none r a hnone]
    refine ⟨by simp [List.lookup], by simp [List.lookup], fun p hp => ?_⟩
    have := hwf p hp
    simp only []
    omega

/-- Witness for C3: a non-string id and its string form, on the empty
registry. -/
theorem get_job_event_single_signal_witness :
    (JobId.objectId "5b1").toStr = (JobId.str "5b1").toStr ∧
    (∀ p ∈ Registry.empty.events, p.2 < Registry.empty.next) ∧
    (((get_job_event ((get_job_event Registry.empty (.objectId "5b1")).2) (.str "5b1")).1 =
        (get_job_event Registry.empty (.objectId "5b1")).1 ∧
      (get_job_event ((get_job_event Registry.empty (.objectId "5b1")).2) (.str "5b1")).2 =
        (get_job_event Registry.empty (.objectId "5b1")).2) ∧
    (Registry.empty.events.lookup (JobId.objectId "5b1").toStr = none →
      ((get_job_event Registry.empty (.objectId "5b1")).2).events.lookup
          (JobId.objectId "5b1").toStr =
        some (get_job_event Registry.empty (.objectId "5b1")).1 ∧
      ((get_job_event Registry.empty (.objectId "5b1")).2).flags.lookup
          (get_job_event Registry.empty (.objectId "5b1")).1 = some false ∧
      ∀ p ∈ Registry.empty.events, p.2 ≠ (get_job_event Registry.empty (.objectId "5b1")).1) ∧
    (∀ e, Registry.empty.events.lookup (JobId.objectId "5b1").toStr = some e →
      get_job_event Registry.empty (.objectId "5b1") = (e, Registry.empty))) :=
  ⟨rfl, by simp [Registry.empty],
   get_job_event_single_signal Registry.empty (.objectId "5b1") (.str "5b1") rfl
     (by simp [Registry.empty])⟩

/-- C7: `wakeup_job` resolves — creating if absent — the signal for the
normalized identifier and sets it: afterwards the id maps to an event
whose state is set. The well-formedness hypothesis says every event
reachable from the id map has an allocated flag, which holds for every
registry the module can build. -/
theorem wakeup_job_sets_signal (r : Registry) (id : JobId)
    (hwf : ∀ (k : String) (e : Nat), r.events.lookup k = some e →
      (r.flags.lookup e).isSome) :
    ∃ e, (wakeup_job r id).events.lookup id.toStr = some e ∧
      (wakeup_job r id).flags.lookup e = some true := by
  refine ⟨(get_job_event r (.str id.toStr)).1, ?_, ?_⟩
  · show ((get_job_event r (.str id.toStr)).2).events.lookup id.toStr = _
    exact get_job_event_lookup_self r (.str id.toStr)
  · show (((get_job_event r (.str id.toStr)).2).setFlag _ true).flags.lookup _ = some true
    apply lookup_setFlagList
    cases hl : r.events.lookup id.toStr with
    | some e0 =>
      rw [get_job_event_of_lookup_some r (.str id.toStr) e0 hl]
      exact hwf id.toStr e0 hl
    | none =>
      rw [get_job_event_of_lookup_none r (.str id.toStr) hl]
      simp [List.lookup]

/-- Witness for C7: waking up an id absent from the empty registry leaves
its signal registered and set. -/
theorem wakeup_job_sets_signal_witness :
    (∀ (k : String) (e : Nat), Registry.empty.events.lookup k = some e →
      (Registry.empty.flags.lookup e).isSome) ∧
    ∃ e, (wakeup_job Registry.empty (.objectId "w1")).events.lookup
        (JobId.objectId "w1").toStr = some e ∧
      (wakeup_job Registry.empty (.objectId "w1")).flags.lookup e = some true :=
  ⟨by simp [Registry.empty, List.lookup],
   wakeup_job_sets_signal Registry.empty (.objectId "w1")
     (by simp [Registry.empty, List.lookup])⟩

/-- C10: constructing a `Job` always registers a signal for its id
(terminal status included — the constructor does not look at the status),
and no registry operation of the module — `_get_job_event`, `wakeup_job`,
an event set or clear, or a whole `wait_till_completed` run — ever removes
a registered id: any id present before is present after. -/
theorem registry_entries_only_grow (r : Registry) (id : JobId) (agent : Agent)
    (action : PyVal) (status : String) (e : Nat) (b : Bool) (k : String)
    (j : Job) (snaps : List Snapshot) :
    (((Job.init r id agent action status).2).events.lookup id.toStr).isSome ∧
    ((r.events.lookup k).isSome →
      (((get_job_event r id).2).events.lookup k).isSome ∧
      ((wakeup_job r id).events.lookup k).isSome ∧
      ((r.setFlag e b).events.lookup k).isSome ∧
      (((wait_till_completed j r snaps).reg).events.lookup k).isSome) := by
  constructor
  · show (((get_job_event r id).2).events.lookup id.toStr).isSome
    rw [get_job_event_lookup_self r id]
    rfl
  · intro hk
    refine ⟨get_job_event_preserves_lookup r id k hk, ?_, hk, ?_⟩
    · show ((((get_job_event r (.str id.toStr)).2).setFlag _ true).events.lookup k).isSome
      rw [setFlag_events]
      exact get_job_event_preserves_lookup r (.str id.toStr) k hk
    · unfold wait_till_completed
      by_cases hj : j.status = "success" ∨ j.status = "failure"
      · rw [if_pos hj]
        exact hk
      · rw [if_neg hj, waitLoop_reg_events]
        exact get_job_event_preserves_lookup r j.id k hk

/-- Skipping a prefix of non-terminal reload snapshots only clears the
event and overwrites the in-memory status/action fields: the wait
continues on the remaining snapshots with the identity fields of the job
intact. -/
theorem waitLoop_skip_nonterminal (ev : Nat) :
    ∀ (pre : List Snapshot),
      (∀ t ∈ pre, t.status ≠ "success" ∧ t.status ≠ "failed") →
      ∀ (j : Job) (r : Registry) (l : List Snapshot),
        ∃ (j' : Job) (r' : Registry),
          waitLoop ev j r (pre ++ l) = waitLoop ev j' r' l ∧
          j'.id = j.id ∧ j'.agent = j.agent ∧ j'.event = j.event := by
  intro pre
  induction pre with
  | nil => intro _ j r l; exact ⟨j, r, rfl, rfl, rfl, rfl⟩
  | cons t pre ih =>
    intro h j r l
    have ht := h t (List.mem_cons_self t pre)
    have hrest : ∀ u ∈ pre, u.status ≠ "success" ∧ u.status ≠ "failed" :=
      fun u hu => h u (List.mem_cons_of_mem t hu)
    obtain ⟨j', r', heq, hid, hag, hev⟩ :=
      ih hrest { j with status := t.status, action := t.action } (r.setFlag ev false) l
    refine ⟨j', r', ?_, hid, hag, hev⟩
    show waitLoop ev j r (t :: (pre ++ l)) = _
    conv_lhs => unfold waitLoop
    rw [if_neg ht.1, if_neg ht.2]
    exact heq

/-- The two record updates performed by successive loop iterations agree
once the identity fields agree: reloading `status` and `action` erases any
earlier reload. -/
theorem reloaded_job_eq (j j' : Job) (s : Snapshot) (hid : j'.id = j.id)
    (hag : j'.agent = j.agent) (hev : j'.event = j.event) :
    ({ j' with status := s.status, action := s.action } : Job) =
      { j with status := s.status, action := s.action } := by
  cases j
  cases j'
  simp only [Job.mk.injEq]
  exact ⟨hid, hag, trivial, trivial, hev⟩

/-- C4: from any point of the wait loop, a reload that observes status
`failed` with `action.error == "no client"` raises
`JobException("NoRatError", "Job failed because the rat was killed", job)`
carrying the reloaded job. The preceding snapshots may be any non-terminal
ones and the initial status anything that enters the loop. -/
theorem wait_till_completed_no_client (j : Job) (r : Registry)
    (pre rest : List Snapshot) (s : Snapshot)
    (hj1 : j.status ≠ "success") (hj2 : j.status ≠ "failure")
    (hpre : ∀ t ∈ pre, t.status ≠ "success" ∧ t.status ≠ "failed")
    (hs : s.status = "failed")
    (he : s.action.getItem "error" = .ok (.str "no client")) :
    ∃ r' : Registry,
      wait_till_completed j r (pre ++ s :: rest) =
        .raised (.jobException3 "NoRatError"
          (.str "Job failed because the rat was killed")
          { j with status := s.status, action := s.action }) r' := by
  have hcond : ¬(j.status = "success" ∨ j.status = "failure") := by
    rintro (h | h)
    · exact hj1 h
    · exact hj2 h
  obtain ⟨j', r', heq, hid, hag, hev⟩ :=
    waitLoop_skip_nonterminal (get_job_event r j.id).1 pre hpre j
      (get_job_event r j.id).2 (s :: rest)
  refine ⟨r', ?_⟩
  unfold wait_till_completed
  rw [if_neg hcond, heq]
  unfold waitLoop
  have hns : s.status ≠ "success" := by rw [hs]; decide
  rw [if_neg hns, if_pos hs, he]
  dsimp only
  rw [if_pos rfl, reloaded_job_eq j j' s hid hag hev]

/-- Witness for C4: a pending job whose single reload observes the
no-client failure raises the `NoRatError` exception. -/
theorem wait_till_completed_no_client_witness :
    pendingJob.status ≠ "success" ∧ pendingJob.status ≠ "failure" ∧
    (⟨"failed", noClientAction⟩ : Snapshot).action.getItem "error" =
      .ok (.str "no client") ∧
    ∃ r' : Registry,
      wait_till_completed pendingJob Registry.empty [⟨"failed", noClientAction⟩] =
        .raised (.jobException3 "NoRatError"
          (.str "Job failed because the rat was killed")
          { pendingJob with status := "failed", action := noClientAction }) r' :=
  ⟨by decide, by decide, rfl,
   wait_till_completed_no_client pendingJob Registry.empty [] []
     ⟨"failed", noClientAction⟩ (by decide) (by decide)
     (fun t ht => absurd ht (List.not_mem_nil t)) rfl rfl⟩

/-- C5: from any point of the wait loop, a reload that observes status
`failed` with `action.error == "agents exception"` raises
`JobException("AgentExceptionError", action.exception, job)`: the message
is exactly the value of the `exception` field, and the exception carries
the reloaded job. -/
theorem wait_till_completed_agents_exception (j : Job) (r : Registry)
    (pre rest : List Snapshot) (s : Snapshot) (exv : PyVal)
    (hj1 : j.status ≠ "success") (hj2 : j.status ≠ "failure")
    (hpre : ∀ t ∈ pre, t.status ≠ "success" ∧ t.status ≠ "failed")
    (hs : s.status = "failed")
    (he : s.action.getItem "error" = .ok (.str "agents exception"))
    (hex : s.action.getItem "exception" = .ok exv) :
    ∃ r' : Registry,
      wait_till_completed j r (pre ++ s :: rest) =
        .raised (.jobException3 "AgentExceptionError" exv
          { j with status := s.status, action := s.action }) r' := by
  have hcond : ¬(j.status = "success" ∨ j.status = "failure") := by
    rintro (h | h)
    · exact hj1 h
    · exact hj2 h
  obtain ⟨j', r', heq, hid, hag, hev⟩ :=
    waitLoop_skip_nonterminal (get_job_event r j.id).1 pre hpre j
      (get_job_event r j.id).2 (s :: rest)
  refine ⟨r', ?_⟩
  unfold wait_till_completed
  rw [if_neg hcond, heq]
  unfold waitLoop
  have hns : s.status ≠ "success" := by rw [hs]; decide
  rw [if_neg hns, if_pos hs, he]
  dsimp only
  rw [if_neg (by decide : ¬(PyVal.str "agents exception" = PyVal.str "no client")),
    if_pos rfl, hex]
  dsimp only
  rw [reloaded_job_eq j j' s hid hag hev]

/-- Witness for C5: a pending job whose single reload observes the
agents-exception failure raises `AgentExceptionError` with message
`"boom"`. -/
theorem wait_till_completed_agents_exception_witness :
    pendingJob.status ≠ "success" ∧ pendingJob.status ≠ "failure" ∧
    (⟨"failed", agentsExceptionAction⟩ : Snapshot).action.getItem "error" =
      .ok (.str "agents exception") ∧
    (⟨"failed", agentsExceptionAction⟩ : Snapshot).action.getItem "exception" =
      .ok (.str "boom") ∧
    ∃ r' : Registry,
      wait_till_completed pendingJob Registry.empty [⟨"failed", agentsExceptionAction⟩] =
        .raised (.jobException3 "AgentExceptionError" (.str "boom")
          { pendingJob with status := "failed", action := agentsExceptionAction }) r' :=
  ⟨by decide, by decide, rfl, rfl,
   wait_till_completed_agents_exception pendingJob Registry.empty [] []
     ⟨"failed", agentsExceptionAction⟩ (.str "boom") (by decide) (by decide)
     (fun t ht => absurd ht (List.not_mem_nil t)) rfl rfl rfl⟩

/-- C6: from any point of the wait loop, a reload that observes status
`failed` with an `action.error` value that is neither `"no client"` nor
`"agents exception"` raises the generic `JobException` whose message is
the fixed text followed by the literal unrecognized error string (its
Python `str()` form), so the message contains that string. -/
theorem wait_till_completed_unrecognized_error (j : Job) (r : Registry)
    (pre rest : List Snapshot) (s : Snapshot) (errv : PyVal)
    (hj1 : j.status ≠ "success") (hj2 : j.status ≠ "failure")
    (hpre : ∀ t ∈ pre, t.status ≠ "success" ∧ t.status ≠ "failed")
    (hs : s.status = "failed")
    (he : s.action.getItem "error" = .ok errv)
    (hn1 : errv ≠ .str "no client") (hn2 : errv ≠ .str "agents exception") :
    ∃ r' : Registry,
      wait_till_completed j r (pre ++ s :: rest) =
        .raised (.jobException1
          ("The action.error field in the job was not recognized: " ++ errv.pyStr)) r' := by
  have hcond : ¬(j.status = "success" ∨ j.status = "failure") := by
    rintro (h | h)
    · exact hj1 h
    · exact hj2 h
  obtain ⟨j', r', heq, hid, hag, hev⟩ :=
    waitLoop_skip_nonterminal (get_job_event r j.id).1 pre hpre j
      (get_job_event r j.id).2 (s :: rest)
  refine ⟨r', ?_⟩
  unfold wait_till_completed
  rw [if_neg hcond, heq]
  unfold waitLoop
  have hns : s.status ≠ "success" := by rw [hs]; decide
  rw [if_neg hns, if_pos hs, he]
  dsimp only
  rw [if_neg hn1, if_neg hn2]

/-- Witness for C6: a pending job whose single reload observes the
unclassified `"disk full"` failure raises the generic exception carrying
the literal error text. -/
theorem wait_till_completed_unrecognized_error_witness :
    pendingJob.status ≠ "success" ∧ pendingJob.status ≠ "failure" ∧
    (⟨"failed", diskFullAction⟩ : Snapshot).action.getItem "error" =
      .ok (.str "disk full") ∧
    (PyVal.str "disk full") ≠ .str "no client" ∧
    (PyVal.str "disk full") ≠ .str "agents exception" ∧
    ∃ r' : Registry,
      wait_till_completed pendingJob Registry.empty [⟨"failed", diskFullAction⟩] =
        .raised (.jobException1
          ("The action.error field in the job was not recognized: " ++
            (PyVal.str "disk full").pyStr)) r' :=
  ⟨by decide, by decide, rfl, by decide, by decide,
   wait_till_completed_unrecognized_error pendingJob Registry.empty [] []
     ⟨"failed", diskFullAction⟩ (.str "disk full") (by decide) (by decide)
     (fun t ht => absurd ht (List.not_mem_nil t)) rfl rfl (by decide) (by decide)⟩

/-- Witness for C10: a registry holding one id keeps it across every
operation, and constructing a pending job registers its id. -/
theorem registry_entries_only_grow_witness :
    ((Registry.mk [("a", 0)] [(0, false)] 1).events.lookup "a").isSome ∧
    (((Job.init (Registry.mk [("a", 0)] [(0, false)] 1) (.str "g1") sampleAgent
        (.dict .nil) "failed").2).events.lookup (JobId.str "g1").toStr).isSome ∧
    ((((get_job_event (Registry.mk [("a", 0)] [(0, false)] 1) (.str "g1")).2).events.lookup
        "a").isSome ∧
      ((wakeup_job (Registry.mk [("a", 0)] [(0, false)] 1) (.str "g1")).events.lookup
        "a").isSome ∧
      (((Registry.mk [("a", 0)] [(0, false)] 1).setFlag 0 true).events.lookup "a").isSome ∧
      (((wait_till_completed pendingJob (Registry.mk [("a", 0)] [(0, false)] 1)
          [⟨"pending", .dict .nil⟩]).reg).events.lookup "a").isSome) :=
  ⟨by decide,
   (registry_entries_only_grow (Registry.mk [("a", 0)] [(0, false)] 1) (.str "g1")
      sampleAgent (.dict .nil) "failed" 0 true "a" pendingJob
      [⟨"pending", .dict .nil⟩]).1,
   (registry_entries_only_grow (Registry.mk [("a", 0)] [(0, false)] 1) (.str "g1")
      sampleAgent (.dict .nil) "failed" 0 true "a" pendingJob
      [⟨"pending", .dict .nil⟩]).2 (by decide)⟩

end Objects
